import Mathlib

/-!
Verification development for the DSA question-generation service
(`app/api/generate-question/route.ts`, `app/api/utils.ts` and friends).

The TypeScript source is shallowly embedded: JavaScript runtime values are
modelled by the inductive `JSValue`, partial JavaScript operations (property
writes on `undefined`, calling `.trim()` on a non-string, ...) return
`Except String _`, and every function of the pipeline
(`extractJSONObject`, `cleanTextField`, `ensureStringArray`,
`validateAndFixVariant`, `inferTopicCategory`, `enrichMetadata`, the `POST`
handler flow) is translated statement by statement from the source.

Modelling conventions:
* JavaScript numbers are modelled as integers (`Int`); no claim under
  scrutiny depends on fractional numeric values inside variant payloads.
  Sampling temperatures are modelled as rationals (`ℚ`).
* JavaScript strings are Lean `String`s; character-level scans work on
  `List Char`.
* JS arrays carry an `elems` list plus a `props` association list, because
  JavaScript arrays accept expando string properties (the enrichment code
  writes named fields onto whatever object sits in `metadata`).
* `Math.random()`-derived data (the shuffled indicator pool and the subset
  size draw) is injected as an explicit parameter, as the repository design
  notes themselves prescribe for testability.
-/

/-- Model of a JavaScript runtime value as produced by `JSON.parse` plus the
`undefined` value. Numbers are restricted to integers (see module comment).
Arrays carry expando properties alongside their elements. -/
inductive JSValue where
  | undef : JSValue
  | null : JSValue
  | bool (b : Bool) : JSValue
  | num (n : Int) : JSValue
  | str (s : String) : JSValue
  | arr (elems : List JSValue) (props : List (String × JSValue)) : JSValue
  | obj (fields : List (String × JSValue)) : JSValue

namespace JSValue

/-- JavaScript truthiness: `undefined`, `null`, `false`, `0` and `""` are
falsy; every object and array is truthy. -/
def truthy : JSValue → Bool
  | undef => false
  | null => false
  | bool b => b
  | num n => n != 0
  | str s => s != ""
  | arr _ _ => true
  | obj _ => true

/-- Whether `typeof v` is the string `"string"`. -/
def isStr : JSValue → Bool
  | str _ => true
  | _ => false

/-- Whether `typeof v` is the string `"number"`. -/
def isNum : JSValue → Bool
  | num _ => true
  | _ => false

/-- `Array.isArray`. -/
def isArr : JSValue → Bool
  | arr _ _ => true
  | _ => false

/-- Whether `typeof v` is the string `"object"` (true for plain objects,
arrays and `null`). -/
def typeofObject : JSValue → Bool
  | obj _ => true
  | arr _ _ => true
  | null => true
  | _ => false

end JSValue

/-- Insert-or-update on an association list, preserving the position of an
existing key (JavaScript property assignment keeps insertion order; a new
key is appended). -/
def upsertField (fs : List (String × JSValue)) (k : String) (v : JSValue) :
    List (String × JSValue) :=
  match fs with
  | [] => [(k, v)]
  | (k₀, v₀) :: rest =>
      if k₀ = k then (k₀, v) :: rest else (k₀, v₀) :: upsertField rest k v

/-- Property read on a field list; absent keys read as `undefined`. -/
def getField (fs : List (String × JSValue)) (k : String) : JSValue :=
  match fs with
  | [] => JSValue.undef
  | (k₀, v₀) :: rest => if k₀ = k then v₀ else getField rest k

/-- Optional-chaining property read `v?.k`: `undefined`/`null` yield
`undefined`; objects and array expando properties yield the stored value;
other primitives have none of the properties this code reads. -/
def optChain (v : JSValue) (k : String) : JSValue :=
  match v with
  | JSValue.obj fs => getField fs k
  | JSValue.arr _ ps => getField ps k
  | _ => JSValue.undef

/-- Strict-mode property write `v.k = x`. Writing to a property of
`undefined` or `null`, or creating a property on a primitive, throws a
`TypeError`; objects update/append the field; arrays store an expando
property. -/
def memberSet (v : JSValue) (k : String) (x : JSValue) :
    Except String JSValue :=
  match v with
  | JSValue.obj fs => Except.ok (JSValue.obj (upsertField fs k x))
  | JSValue.arr es ps => Except.ok (JSValue.arr es (upsertField ps k x))
  | JSValue.undef =>
      Except.error ("TypeError: Cannot set properties of undefined (setting " ++ k ++ ")")
  | JSValue.null =>
      Except.error ("TypeError: Cannot set properties of null (setting " ++ k ++ ")")
  | _ =>
      Except.error ("TypeError: Cannot create property " ++ k ++ " on a primitive")

/-- Object spread `\x7b ...v \x7d` as used to copy a variant: a plain object
contributes its fields; any other value contributes none. (Spreading a
string would contribute index properties; no property with a string-index
name is ever read by this code, so the simplification is observationally
harmless here.) -/
def jsSpread (v : JSValue) : List (String × JSValue) :=
  match v with
  | JSValue.obj fs => fs
  | _ => []

/-- Characters treated as whitespace by JavaScript `String.prototype.trim`
and by the `\s` regex class (the subset that can occur in this pipeline). -/
def jsWhitespace (c : Char) : Bool :=
  c = ' ' ∨ c = '\t' ∨ c = '\n' ∨ c = '\r' ∨ c = '\x0b' ∨ c = '\x0c' ∨
    c = ' '

/-- JavaScript `String.prototype.trim` on a character list. -/
def jsTrim (l : List Char) : List Char :=
  ((l.dropWhile jsWhitespace).reverse.dropWhile jsWhitespace).reverse

/-- The global replacement `.replace(bsbsn, bsn)` (regex: two backslashes
followed by `n`, replaced by one backslash followed by `n`) that the source
uses to collapse doubly-escaped newlines. Left-to-right, non-overlapping,
exactly as a JavaScript global regex replace proceeds. -/
def collapseEsc : List Char → List Char
  | '\\' :: '\\' :: 'n' :: rest => '\\' :: 'n' :: collapseEsc rest
  | c :: rest => c :: collapseEsc rest
  | [] => []

/-- ASCII lower-casing, the fragment of `String.prototype.toLowerCase`
exercised by the topic classifier. -/
def jsLower (l : List Char) : List Char := l.map Char.toLower

/-- Whether `pat` occurs as a prefix of `l`. -/
def startsWithSeq (pat l : List Char) : Bool :=
  match pat, l with
  | [], _ => true
  | _ :: _, [] => false
  | p :: ps, c :: cs => p = c && startsWithSeq ps cs

/-- Whether `pat` occurs as a contiguous subsequence of `l`. -/
def containsSeq (pat l : List Char) : Bool :=
  match l with
  | [] => startsWithSeq pat []
  | _ :: cs => startsWithSeq pat l || containsSeq pat cs

/-- `String.prototype.includes`: substring containment. -/
def jsIncludes (hay : List Char) (needle : String) : Bool :=
  containsSeq needle.toList hay


/-- JSON whitespace accepted between tokens by `JSON.parse`. -/
def isJsonWs (c : Char) : Bool :=
  c = ' ' || c = '\t' || c = '\n' || c = '\r'

/-- Skip JSON inter-token whitespace. -/
def skipJsonWs (l : List Char) : List Char := l.dropWhile isJsonWs

/-- Value of a hexadecimal digit, if any. -/
def hexDigitVal (c : Char) : Option Nat :=
  if '0' ≤ c ∧ c ≤ '9' then some (c.toNat - '0'.toNat)
  else if 'a' ≤ c ∧ c ≤ 'f' then some (c.toNat - 'a'.toNat + 10)
  else if 'A' ≤ c ∧ c ≤ 'F' then some (c.toNat - 'A'.toNat + 10)
  else none

/-- Parse the body of a JSON string literal (after the opening quote),
returning the decoded characters and the rest of the input after the
closing quote. Escapes follow RFC 8259; raw control characters are
rejected, exactly as `JSON.parse` does. -/
def parseStringBody : List Char → Option (List Char × List Char)
  | '"' :: rest => some ([], rest)
  | '\\' :: '"' :: rest =>
      (parseStringBody rest).map (fun p => ('"' :: p.1, p.2))
  | '\\' :: '\\' :: rest =>
      (parseStringBody rest).map (fun p => ('\\' :: p.1, p.2))
  | '\\' :: '/' :: rest =>
      (parseStringBody rest).map (fun p => ('/' :: p.1, p.2))
  | '\\' :: 'b' :: rest =>
      (parseStringBody rest).map (fun p => ('\x08' :: p.1, p.2))
  | '\\' :: 'f' :: rest =>
      (parseStringBody rest).map (fun p => ('\x0c' :: p.1, p.2))
  | '\\' :: 'n' :: rest =>
      (parseStringBody rest).map (fun p => ('\n' :: p.1, p.2))
  | '\\' :: 'r' :: rest =>
      (parseStringBody rest).map (fun p => ('\r' :: p.1, p.2))
  | '\\' :: 't' :: rest =>
      (parseStringBody rest).map (fun p => ('\t' :: p.1, p.2))
  | '\\' :: 'u' :: h₁ :: h₂ :: h₃ :: h₄ :: rest =>
      match hexDigitVal h₁, hexDigitVal h₂, hexDigitVal h₃, hexDigitVal h₄ with
      | some a, some b, some c, some d =>
          (parseStringBody rest).map
            (fun p => (Char.ofNat (((a * 16 + b) * 16 + c) * 16 + d) :: p.1, p.2))
      | _, _, _, _ => none
  | '\\' :: _ => none
  | c :: rest =>
      if c.toNat < 0x20 then none
      else (parseStringBody rest).map (fun p => (c :: p.1, p.2))
  | [] => none

/-- Accumulate the integer value of a digit run. -/
def digitsToNat (acc : Nat) : List Char → Nat
  | [] => acc
  | c :: cs => digitsToNat (acc * 10 + (c.toNat - '0'.toNat)) cs

/-- Parse a JSON number (grammar of RFC 8259: optional minus, integer part
without leading zeros, optional fraction, optional exponent). The numeric
value is truncated to its integer part, in line with the integer-only
number model of this embedding; acceptance or rejection of the text is
faithful. -/
def parseNumber (l : List Char) : Option (Int × List Char) :=
  let (neg, l₁) : Bool × List Char :=
    match l with
    | '-' :: r => (true, r)
    | _ => (false, l)
  let ds := l₁.takeWhile Char.isDigit
  let r₁ := l₁.dropWhile Char.isDigit
  if ds = [] then none
  else if ds.length > 1 ∧ ds.headI = '0' then none
  else
    let afterFrac : Option (List Char) :=
      match r₁ with
      | '.' :: r =>
          if r.takeWhile Char.isDigit = [] then none
          else some (r.dropWhile Char.isDigit)
      | _ => some r₁
    match afterFrac with
    | none => none
    | some r₂ =>
      let afterExp : Option (List Char) :=
        match r₂ with
        | 'e' :: '+' :: r => if r.takeWhile Char.isDigit = [] then none else some (r.dropWhile Char.isDigit)
        | 'e' :: '-' :: r => if r.takeWhile Char.isDigit = [] then none else some (r.dropWhile Char.isDigit)
        | 'e' :: r => if r.takeWhile Char.isDigit = [] then none else some (r.dropWhile Char.isDigit)
        | 'E' :: '+' :: r => if r.takeWhile Char.isDigit = [] then none else some (r.dropWhile Char.isDigit)
        | 'E' :: '-' :: r => if r.takeWhile Char.isDigit = [] then none else some (r.dropWhile Char.isDigit)
        | 'E' :: r => if r.takeWhile Char.isDigit = [] then none else some (r.dropWhile Char.isDigit)
        | _ => some r₂
      match afterExp with
      | none => none
      | some r₃ =>
          let v : Int := Int.ofNat (digitsToNat 0 ds)
          some (if neg then -v else v, r₃)

mutual

/-- Fuel-indexed recursive-descent parser for a JSON value, modelling
`JSON.parse` acceptance. Leading whitespace is skipped; the remainder of
the input is returned. -/
def parseValue : Nat → List Char → Option (JSValue × List Char)
  | 0, _ => none
  | fuel + 1, l =>
    match skipJsonWs l with
    | 'n' :: 'u' :: 'l' :: 'l' :: rest => some (JSValue.null, rest)
    | 't' :: 'r' :: 'u' :: 'e' :: rest => some (JSValue.bool true, rest)
    | 'f' :: 'a' :: 'l' :: 's' :: 'e' :: rest => some (JSValue.bool false, rest)
    | '"' :: rest => (parseStringBody rest).map (fun p => (JSValue.str (String.mk p.1), p.2))
    | '{' :: rest =>
        (match skipJsonWs rest with
         | '}' :: r => some (JSValue.obj [], r)
         | l₁ => parseMemberList fuel l₁ [])
    | '[' :: rest =>
        (match skipJsonWs rest with
         | ']' :: r => some (JSValue.arr [] [], r)
         | l₁ => parseItemList fuel l₁ [])
    | l₁ => (parseNumber l₁).map (fun p => (JSValue.num p.1, p.2))

/-- Parse the members of a JSON object after at least one member is known
to follow; duplicate keys overwrite, keeping first-insertion order, exactly
as JavaScript object construction does. -/
def parseMemberList : Nat → List Char → List (String × JSValue) →
    Option (JSValue × List Char)
  | 0, _, _ => none
  | fuel + 1, l, acc =>
    match l with
    | '"' :: rest =>
        match parseStringBody rest with
        | none => none
        | some (key, r₁) =>
          match skipJsonWs r₁ with
          | ':' :: r₂ =>
              match parseValue fuel r₂ with
              | none => none
              | some (v, r₃) =>
                  let acc₁ := upsertField acc (String.mk key) v
                  match skipJsonWs r₃ with
                  | ',' :: r₄ => parseMemberList fuel (skipJsonWs r₄) acc₁
                  | '}' :: r₄ => some (JSValue.obj acc₁, r₄)
                  | _ => none
          | _ => none
    | _ => none

/-- Parse the items of a JSON array after at least one item is known to
follow. -/
def parseItemList : Nat → List Char → List JSValue →
    Option (JSValue × List Char)
  | 0, _, _ => none
  | fuel + 1, l, acc =>
      match parseValue fuel l with
      | none => none
      | some (v, r₁) =>
          match skipJsonWs r₁ with
          | ',' :: r₂ => parseItemList fuel r₂ (v :: acc)
          | ']' :: r₂ => some (JSValue.arr (v :: acc).reverse [], r₂)
          | _ => none

end

/-- Model of `JSON.parse`: parse one JSON value and require only trailing
whitespace after it. `none` models a thrown `SyntaxError`. -/
def jsonParse (s : String) : Option JSValue :=
  match parseValue (s.length + 1) s.toList with
  | some (v, rest) => if skipJsonWs rest = [] then some v else none
  | none => none

mutual

/-- JavaScript `String(v)` coercion for the values of this model:
`undefined`/`null`/booleans/numbers print their canonical text, arrays
join their elements with commas (with `null`/`undefined` elements printing
as empty), plain objects print as `[object Object]`. -/
def jsToString : JSValue → String
  | JSValue.undef => "undefined"
  | JSValue.null => "null"
  | JSValue.bool b => if b then "true" else "false"
  | JSValue.num n => toString n
  | JSValue.str s => s
  | JSValue.arr es _ => String.intercalate "," (jsArrElemStrings es)
  | JSValue.obj _ => "[object Object]"

/-- Element conversion used by `Array.prototype.join`: `null` and
`undefined` become the empty string. -/
def jsArrElemStrings : List JSValue → List String
  | [] => []
  | JSValue.undef :: vs => "" :: jsArrElemStrings vs
  | JSValue.null :: vs => "" :: jsArrElemStrings vs
  | v :: vs => jsToString v :: jsArrElemStrings vs

end

/-- The per-element coercion `String(item).replace(bsbsn, bsn).trim()`
applied by `ensureStringArray`. -/
def coerceElem (v : JSValue) : String :=
  String.mk (jsTrim (collapseEsc (jsToString v).toList))

/-- Translation of `ensureStringArray` (route.ts lines 106-121): arrays are
coerced element-wise; strings are `JSON.parse`d and, when the result is an
array, coerced the same way; every other input yields the empty array. -/
def ensureStringArray (v : JSValue) : List String :=
  match v with
  | JSValue.arr es _ => es.map coerceElem
  | JSValue.str s =>
      match jsonParse s with
      | some (JSValue.arr es _) => es.map coerceElem
      | _ => []
  | _ => []


/-- State of the character scan inside `extractJSONObject` (route.ts lines
20-57): brace depth, quoted-string flag, escape flag, and the recorded
candidate start/end indices (`none` models the sentinel `-1`). -/
structure ScanState where
  braceCount : Int
  inString : Bool
  escapeNext : Bool
  startIdx : Option Nat
  endIdx : Option Nat

/-- Initial scan state. -/
def initScanState : ScanState :=
  { braceCount := 0, inString := false, escapeNext := false,
    startIdx := none, endIdx := none }

/-- One iteration of the extraction scan at index `i` over character `c`,
translated clause by clause from the loop body: a pending escape consumes
the character; a backslash arms the escape; an (unescaped) quote toggles
string state; characters inside a string are otherwise ignored; outside a
string `\x7b` records a start index and increments depth, `\x7d` decrements
depth and records the end index when depth returns to zero after a start
was seen. -/
def scanStep (st : ScanState) (i : Nat) (c : Char) : ScanState :=
  if st.escapeNext then { st with escapeNext := false }
  else if c = '\\' then { st with escapeNext := true }
  else
    let st₁ := if c = '"' then { st with inString := !st.inString } else st
    if st₁.inString then st₁
    else if c = '{' then
      { st₁ with startIdx := some (st₁.startIdx.getD i),
                 braceCount := st₁.braceCount + 1 }
    else if c = '}' then
      let bc := st₁.braceCount - 1
      if bc = 0 && st₁.startIdx.isSome then
        { st₁ with braceCount := bc, endIdx := some i }
      else { st₁ with braceCount := bc }
    else st₁

/-- The extraction scan loop; the loop breaks as soon as an end index is
recorded. -/
def scanLoop (st : ScanState) (i : Nat) : List Char → ScanState
  | [] => st
  | c :: cs =>
      let st₁ := scanStep st i c
      if st₁.endIdx.isSome then st₁ else scanLoop st₁ (i + 1) cs

/-- JavaScript `substring(a, b)` on a character list. -/
def sliceList (l : List Char) (a b : Nat) : List Char := (l.drop a).take (b - a)

/-- Index of the last occurrence of `c`, modelling `lastIndexOf`. -/
def lastIdxOf (l : List Char) (c : Char) : Option Nat :=
  match l.reverse.findIdx? (· = c) with
  | some j => some (l.length - 1 - j)
  | none => none

/-- The looser fallback regex of the extractor. A greedy match of
a brace-to-brace span exists exactly when some `\x7b` precedes some `\x7d`;
it then spans from the first `\x7b` to the last `\x7d`. -/
def jsonRegexSpan (cs : List Char) : List Char :=
  match cs.findIdx? (· = '{'), lastIdxOf cs '}' with
  | some f, some l₀ => if f < l₀ then sliceList cs f (l₀ + 1) else []
  | _, _ => []

/-- Error text thrown when no JSON object can be recovered. -/
def unbalancedMsg : String :=
  "Unbalanced JSON object - could not find valid JSON in response"

/-- Translation of `extractJSONObject` (route.ts lines 8-92): trim; return
unchanged if the whole text already parses; otherwise scan for the first
balanced brace span outside quoted strings; otherwise fall back to the
first-brace/last-brace substring (or the loose regex), accepted only if it
parses; otherwise fail. -/
def extractJSONObject (raw : String) : Except String String :=
  let s := String.mk (jsTrim raw.toList)
  if (jsonParse s).isSome then Except.ok s
  else
    let cs := s.toList
    let st := scanLoop initScanState 0 cs
    match st.startIdx, st.endIdx with
    | some a, some b => Except.ok (String.mk (sliceList cs a (b + 1)))
    | _, _ =>
        let potential : List Char :=
          match cs.findIdx? (· = '{'), lastIdxOf cs '}' with
          | some f, some l₀ =>
              if f < l₀ then sliceList cs f (l₀ + 1) else jsonRegexSpan cs
          | _, _ => jsonRegexSpan cs
        if potential ≠ [] then
          if (jsonParse (String.mk potential)).isSome then
            Except.ok (String.mk potential)
          else Except.error unbalancedMsg
        else Except.error unbalancedMsg

/-- Advance past the next triple-backtick, if one occurs. -/
def dropToFenceClose : List Char → Option (List Char)
  | '`' :: '`' :: '`' :: rest => some rest
  | _ :: rest => dropToFenceClose rest
  | [] => none

/-- Fuel-indexed engine for the global non-greedy replacement of
triple-backtick fenced spans with the empty string; one unit of fuel per
character suffices because every step consumes at least one character. -/
def removeCodeFencesAux : Nat → List Char → List Char
  | 0, l => l
  | fuel + 1, l =>
    match l with
    | '`' :: '`' :: '`' :: rest =>
        match dropToFenceClose rest with
        | some after => removeCodeFencesAux fuel after
        | none => '`' :: removeCodeFencesAux fuel ('`' :: '`' :: rest)
    | c :: rest => c :: removeCodeFencesAux fuel rest
    | [] => []

/-- The global replacement of Markdown code-fence spans used by
`cleanTextField` and the constraints cleaner. -/
def removeCodeFences (l : List Char) : List Char :=
  removeCodeFencesAux l.length l

/-- Case-insensitive anchored match of a (lowercase) pattern, returning the
remainder of the input. -/
def matchCI : List Char → List Char → Option (List Char)
  | [], l => some l
  | _ :: _, [] => none
  | p :: ps, c :: cs => if c.toLower = p then matchCI ps cs else none

/-- Anchored case-insensitive label stripper modelling the regex
`(word1|word2|...) :? whitespace*` with replacement by the empty string;
the first alternative that matches wins, and a failed match leaves the text
unchanged. -/
def stripLabel (words : List String) (l : List Char) : List Char :=
  match words with
  | [] => l
  | w :: ws =>
    match matchCI w.toList l with
    | some rest =>
        let rest₁ :=
          match rest with
          | ':' :: r => r
          | _ => rest
        rest₁.dropWhile jsWhitespace
    | none => stripLabel ws l

/-- String-level body of `cleanTextField`: trim, drop code fences, trim,
strip a leading explanation label, trim; empty results become absent
(`none`). -/
def cleanStrText (s : String) : Option String :=
  let c₁ := jsTrim s.toList
  let c₂ := jsTrim (removeCodeFences c₁)
  let c₃ := jsTrim (stripLabel ["explanation", "note", "hint", "output"] c₂)
  if c₃ = [] then none else some (String.mk c₃)

/-- Translation of `cleanTextField` (route.ts lines 95-103). `undefined`
and `null` inputs return `undefined`; strings are cleaned; any other value
throws, because `.trim()` is not a function of numbers, booleans, arrays
or plain objects. -/
def cleanTextField (v : JSValue) : Except String JSValue :=
  match v with
  | JSValue.undef => Except.ok JSValue.undef
  | JSValue.null => Except.ok JSValue.undef
  | JSValue.str s =>
      Except.ok
        (match cleanStrText s with
         | some t => JSValue.str t
         | none => JSValue.undef)
  | _ => Except.error "TypeError: text.trim is not a function"


/-- Whether a value is the `undefined` value. -/
def JSValue.isUndef : JSValue → Bool
  | JSValue.undef => true
  | _ => false

/-- Character class `[0-9 whitespace < = > ^ ( ) . * + -]` of the
constraints-shape regex. -/
def constraintChar (c : Char) : Bool :=
  c.isDigit || jsWhitespace c || c = '<' || c = '=' || c = '>' || c = '^' ||
    c = '(' || c = ')' || c = '.' || c = '*' || c = '+' || c = '-'

/-- JavaScript `split("\n")`: the empty string yields one empty line. -/
def splitOnNl : List Char → List (List Char)
  | [] => [[]]
  | '\n' :: rest => [] :: splitOnNl rest
  | c :: rest =>
      match splitOnNl rest with
      | [] => [[c]]
      | line :: ls => (c :: line) :: ls

/-- String-level body of the constraints cleaning of
`validateAndFixVariant` step 5: strip a leading `Constraints`/`Note`
label, drop code fences, trim; if the result is not entirely made of
numeric/operator characters, keep only the lines containing at least one
such character; an empty result is absent. -/
def cleanConstraintsStr (s : String) : Option String :=
  let c₁ := jsTrim (removeCodeFences (stripLabel ["constraints", "note"] s.toList))
  let c₂ :=
    if c₁ ≠ [] ∧ c₁.all constraintChar then c₁
    else
      jsTrim (List.intercalate ['\n']
        ((splitOnNl c₁).filter (fun line => line.any constraintChar)))
  if c₂ = [] then none else some (String.mk c₂)

/-- The `cleanTextField(output) || ""` combination applied to each hidden
output (always called on a string, so it cannot throw). -/
def cleanOrEmpty (t : String) : String := (cleanStrText t).getD ""

/-- Step 7 helper: when a metadata field is present (truthy) and is a
string, re-parse it into a genuine string array in place. -/
def fixMetaStringArray (md : JSValue) (k : String) : Except String JSValue :=
  let mi := optChain md k
  if mi.truthy && mi.isStr then
    memberSet md k (JSValue.arr ((ensureStringArray mi).map JSValue.str) [])
  else pure md

/-- Drop fields whose value is `undefined`, modelling the
`for key in ... delete` cleanup loops. -/
def dropUndefFields (fs : List (String × JSValue)) : List (String × JSValue) :=
  fs.filter (fun kv => !kv.2.isUndef)

/-- The nested cleanup loop applied to `test_cases` and `metadata`:
on an object (or the expando properties of an array) delete
`undefined`-valued fields; primitives have no enumerable own
`undefined`-valued properties, so they are untouched. -/
def dropUndefInner (v : JSValue) : JSValue :=
  match v with
  | JSValue.obj fs => JSValue.obj (dropUndefFields fs)
  | JSValue.arr es ps => JSValue.arr es (dropUndefFields ps)
  | w => w

/-- Translation of `validateAndFixVariant` (route.ts lines 124-217),
statement by statement in source order. Thrown `TypeError`s surface as
`Except.error`; in particular the unguarded write
`fixedVariant.test_cases.sample_input = undefined` in the else-branch of
step 1 throws whenever `test_cases` is `undefined`, `null` or a
primitive. -/
def validateAndFixVariant (variant : JSValue) : Except String JSValue := do
  let fv₀ := jsSpread variant
  -- 1. Ensure sample_input
  let tc₀ := getField fv₀ "test_cases"
  let fv₁ ←
    match optChain tc₀ "sample_input" with
    | JSValue.str s => do
        let tc₁ ← memberSet tc₀ "sample_input"
            (JSValue.str (String.mk (jsTrim (collapseEsc s.toList))))
        pure (upsertField fv₀ "test_cases" tc₁)
    | _ => do
        let tc₁ ← memberSet tc₀ "sample_input" JSValue.undef
        pure (upsertField fv₀ "test_cases" tc₁)
  -- 2. Ensure hidden_inputs
  let tc₂ := getField fv₁ "test_cases"
  let fv₂ ←
    if (optChain tc₂ "hidden_inputs").truthy then do
      let tc₃ ← memberSet tc₂ "hidden_inputs"
          (JSValue.arr ((ensureStringArray (optChain tc₂ "hidden_inputs")).map
            (fun t => JSValue.str (String.mk (jsTrim (collapseEsc t.toList))))) [])
      pure (upsertField fv₁ "test_cases" tc₃)
    else do
      let tc₃ ← memberSet tc₂ "hidden_inputs" (JSValue.arr [] [])
      pure (upsertField fv₁ "test_cases" tc₃)
  -- 3. Ensure hidden_outputs
  let tc₄ := getField fv₂ "test_cases"
  let fv₃ ←
    if (optChain tc₄ "hidden_outputs").truthy then do
      let tc₅ ← memberSet tc₄ "hidden_outputs"
          (JSValue.arr ((ensureStringArray (optChain tc₄ "hidden_outputs")).map
            (fun t => JSValue.str (cleanOrEmpty t))) [])
      pure (upsertField fv₂ "test_cases" tc₅)
    else do
      let tc₅ ← memberSet tc₄ "hidden_outputs" (JSValue.arr [] [])
      pure (upsertField fv₂ "test_cases" tc₅)
  -- 4. Sanitize description and hint
  let d ← cleanTextField (getField fv₃ "description")
  let fv₄ := upsertField fv₃ "description" d
  let h ← cleanTextField (getField fv₄ "hint")
  let fv₅ := upsertField fv₄ "hint" h
  -- 5. Ensure constraints
  let fv₆ :=
    match getField fv₅ "constraints" with
    | JSValue.str s =>
        upsertField fv₅ "constraints"
          (match cleanConstraintsStr s with
           | some t => JSValue.str t
           | none => JSValue.undef)
    | _ => upsertField fv₅ "constraints" JSValue.undef
  -- 6. Ensure input_format and output_format
  let inf ← cleanTextField (getField fv₆ "input_format")
  let fv₇ := upsertField fv₆ "input_format" inf
  let outf ← cleanTextField (getField fv₇ "output_format")
  let fv₈ := upsertField fv₇ "output_format" outf
  -- 7. Re-parse accidentally stringified arrays
  let fv₉ :=
    match getField fv₈ "tags" with
    | JSValue.str s =>
        upsertField fv₈ "tags"
          (JSValue.arr ((ensureStringArray (JSValue.str s)).map JSValue.str) [])
    | _ => fv₈
  let md₀ := getField fv₉ "metadata"
  let md₁ ← fixMetaStringArray md₀ "mastery_indicators"
  let md₂ ← fixMetaStringArray md₁ "common_approaches"
  let md₃ ← fixMetaStringArray md₂ "common_mistakes"
  let md₄ ← fixMetaStringArray md₃ "tags"
  let fv₁₀ := upsertField fv₉ "metadata" md₄
  -- Remove undefined-valued fields
  let fv₁₁ := dropUndefFields fv₁₀
  let fv₁₂ :=
    if (getField fv₁₁ "test_cases").truthy then
      upsertField fv₁₁ "test_cases" (dropUndefInner (getField fv₁₁ "test_cases"))
    else fv₁₁
  let fv₁₃ :=
    if (getField fv₁₂ "metadata").truthy then
      upsertField fv₁₂ "metadata" (dropUndefInner (getField fv₁₂ "metadata"))
    else fv₁₂
  pure (JSValue.obj fv₁₃)


/-- Models the pattern `x?.toLowerCase() || ""`: a missing value yields the
empty string, a string is lower-cased, and any other value throws because
it has no `toLowerCase` method. -/
def toLowerOrEmpty (v : JSValue) : Except String String :=
  match v with
  | JSValue.undef => Except.ok ""
  | JSValue.null => Except.ok ""
  | JSValue.str s => Except.ok (String.mk (jsLower s.toList))
  | _ => Except.error "TypeError: toLowerCase is not a function"

/-- The keyword if-chain of `inferTopicCategory` (route.ts lines 227-241),
kept in source order with the source keywords. -/
def classifyChain (text : List Char) : String :=
  if jsIncludes text "array" || jsIncludes text "subarray" ||
     jsIncludes text "sorting" || jsIncludes text "rotate" then "Arrays"
  else if jsIncludes text "string" || jsIncludes text "palindrome" ||
     jsIncludes text "substring" || jsIncludes text "anagram" then "Strings"
  else if jsIncludes text "tree" || jsIncludes text "bst" ||
     jsIncludes text "binary tree" || jsIncludes text "trie" then "Trees"
  else if jsIncludes text "graph" || jsIncludes text "dfs" ||
     jsIncludes text "bfs" || jsIncludes text "path" then "Graphs"
  else if jsIncludes text "dp" || jsIncludes text "dynamic programming" ||
     jsIncludes text "memoization" then "Dynamic Programming"
  else if jsIncludes text "search" || jsIncludes text "binary search" then "Searching"
  else if jsIncludes text "two pointers" || jsIncludes text "sliding window" then "Two Pointers"
  else if jsIncludes text "linked list" || jsIncludes text "node" then "Linked Lists"
  else if jsIncludes text "stack" || jsIncludes text "queue" then "Stacks & Queues"
  else if jsIncludes text "hash map" || jsIncludes text "hash table" ||
     jsIncludes text "set" then "Hash Tables"
  else if jsIncludes text "heap" || jsIncludes text "priority queue" then "Heaps"
  else if jsIncludes text "matrix" || jsIncludes text "grid" then "Matrix"
  else if jsIncludes text "bit manipulation" || jsIncludes text "bits" then "Bit Manipulation"
  else "General"

/-- The keyword table of the classifier, written as an ordered list of
rules so that first-match semantics can be stated against the if-chain. -/
def topicRules : List (List String × String) :=
  [(["array", "subarray", "sorting", "rotate"], "Arrays"),
   (["string", "palindrome", "substring", "anagram"], "Strings"),
   (["tree", "bst", "binary tree", "trie"], "Trees"),
   (["graph", "dfs", "bfs", "path"], "Graphs"),
   (["dp", "dynamic programming", "memoization"], "Dynamic Programming"),
   (["search", "binary search"], "Searching"),
   (["two pointers", "sliding window"], "Two Pointers"),
   (["linked list", "node"], "Linked Lists"),
   (["stack", "queue"], "Stacks & Queues"),
   (["hash map", "hash table", "set"], "Hash Tables"),
   (["heap", "priority queue"], "Heaps"),
   (["matrix", "grid"], "Matrix"),
   (["bit manipulation", "bits"], "Bit Manipulation")]

/-- First-match lookup over the ordered keyword table: the earliest rule
one of whose keywords occurs as a substring of the blob supplies the
category; otherwise the category is General. -/
def tableClassify (text : List Char) : String :=
  match topicRules.find? (fun r => r.1.any (fun kw => jsIncludes text kw)) with
  | some r => r.2
  | none => "General"

/-- The left-to-right element map `tags.map(t => t.toLowerCase())`, which
throws on the first non-string element. -/
def lowerTags : List JSValue → Except String (List String)
  | [] => Except.ok []
  | JSValue.str s :: rest =>
      (lowerTags rest).map (fun ts => String.mk (jsLower s.toList) :: ts)
  | _ :: _ => Except.error "TypeError: toLowerCase is not a function"

/-- Translation of `inferTopicCategory` (route.ts lines 220-242): build the
lowercase blob `title SP description SP tags-joined` and run the keyword
chain. Reading a property off a `null`/`undefined` variant, or lower-casing
a non-string field, throws. -/
def inferTopicCategory (v : JSValue) : Except String String := do
  match v with
  | JSValue.undef => Except.error "TypeError: Cannot read properties of undefined"
  | JSValue.null => Except.error "TypeError: Cannot read properties of null"
  | _ => do
    let title ← toLowerOrEmpty (optChain v "title")
    let description ← toLowerOrEmpty (optChain v "description")
    let tags ←
      match optChain v "tags" with
      | JSValue.arr es _ => lowerTags es
      | _ => pure ([] : List String)
    let text := title ++ " " ++ description ++ " " ++ String.intercalate " " tags
    pure (classifyChain text.toList)

/-- The injected randomness consumed by one `enrichMetadata` call: the
`Math.random()` draw deciding the subset size, and the result of the
random comparator shuffle of the indicator pool. -/
structure EnrichRand where
  r : ℚ
  shuffled : List String

/-- The fixed eight-phrase mastery-indicator pool (route.ts lines
319-328). -/
def commonIndicators : List String :=
  ["Handles edge cases consistently",
   "Understands time-space trade-offs",
   "Knows optimal algorithmic patterns",
   "Implements input parsing cleanly",
   "Avoids off-by-one errors",
   "Understands recursion depth limits",
   "Applies appropriate data structures",
   "Identifies problem type correctly"]

/-- JavaScript strict equality of a value against a string literal. -/
def eqStrVal (v : JSValue) (s : String) : Bool :=
  match v with
  | JSValue.str t => t = s
  | _ => false

/-- Step 0 of `enrichMetadata`: copy non-empty top-level tags into
`metadata.tags`, else default an absent/falsy `metadata.tags` to `[]`. -/
def enrichStep0 (tags md : JSValue) : Except String JSValue :=
  match tags with
  | JSValue.arr es ps =>
      if es.length > 0 then memberSet md "tags" (JSValue.arr es ps)
      else if !(optChain md "tags").truthy then memberSet md "tags" (JSValue.arr [] [])
      else pure md
  | _ =>
      if !(optChain md "tags").truthy then memberSet md "tags" (JSValue.arr [] [])
      else pure md

/-- Step 1 of `enrichMetadata`: infer `topic_category` when absent or the
placeholder General. -/
def enrichStep1 (variantView md : JSValue) : Except String JSValue := do
  if !(optChain md "topic_category").truthy ||
     eqStrVal (optChain md "topic_category") "General" then
    let cat ← inferTopicCategory variantView
    memberSet md "topic_category" (JSValue.str cat)
  else pure md

/-- Step 2 of `enrichMetadata`: default complexities. -/
def enrichStep2 (md : JSValue) : Except String JSValue := do
  let md₁ ←
    if !(optChain md "time_complexity").truthy ||
       eqStrVal (optChain md "time_complexity") "O(...)" then
      memberSet md "time_complexity" (JSValue.str "O(N)")
    else pure md
  if !(optChain md₁ "space_complexity").truthy ||
     eqStrVal (optChain md₁ "space_complexity") "O(...)" then
    memberSet md₁ "space_complexity" (JSValue.str "O(1)")
  else pure md₁

/-- Step 4 of `enrichMetadata`: difficulty-based solve-time default. -/
def enrichStep4 (difficulty md : JSValue) : Except String JSValue :=
  if !(optChain md "expected_solve_time_minutes").truthy then
    memberSet md "expected_solve_time_minutes"
      (JSValue.num
        (if eqStrVal difficulty "Easy" then 7
         else if eqStrVal difficulty "Medium" then 15
         else if eqStrVal difficulty "Hard" then 30
         else 15))
  else pure md

/-- Whether a value is a non-empty array. -/
def isNonEmptyArray (v : JSValue) : Bool :=
  match v with
  | JSValue.arr es _ => es.length != 0
  | _ => false

/-- The subset size `Math.floor(r * 4) + 3` drawn in step 5, written with
Euclidean integer division on the numerator so that the kernel can
evaluate it; `numIndicatorsOf_eq_floor` below proves it equal to the
floor-of-a-rational formula of the source. -/
def numIndicatorsOf (r : ℚ) : Nat := ((4 * r.num) / (r.den : Int) + 3).toNat

/-- Step 5 of `enrichMetadata`: when `mastery_indicators` is not a
non-empty array, take the first `numIndicators` entries of the shuffled
pool (the loop bound `i < numIndicators && i < shuffled.length` is exactly
a truncating take). -/
def enrichStep5 (rng : EnrichRand) (md : JSValue) : Except String JSValue :=
  if !(isNonEmptyArray (optChain md "mastery_indicators")) then
    memberSet md "mastery_indicators"
      (JSValue.arr ((rng.shuffled.take (numIndicatorsOf rng.r)).map JSValue.str) [])
  else pure md

/-- The metadata-update chain of `enrichMetadata`, steps 0 through 5 in
source order. `vv` is the variant object handed to the topic classifier;
the classifier reads only `title`, `description` and `tags`, none of which
the chain mutates, so the view is fixed once before the chain runs. -/
def enrichChain (rng : EnrichRand) (tags diff vv md : JSValue) :
    Except String JSValue := do
  let mdB ← enrichStep0 tags md
  let mdC ← enrichStep1 vv mdB
  let mdD ← enrichStep2 mdC
  let mdE ← enrichStep4 diff mdD
  enrichStep5 rng mdE

/-- Translation of `enrichMetadata` (route.ts lines 276-340). The
randomness of step 5 is injected through `rng`; everything else follows
the source statement by statement (step numbering matches the source
comments; the source has no step 3). -/
def enrichMetadata (rng : EnrichRand) (variant : JSValue) : Except String JSValue := do
  let fv := jsSpread variant
  let md₀ := getField fv "metadata"
  let mdA := if md₀.truthy then md₀ else JSValue.obj []
  let fv₁ := upsertField fv "metadata" mdA
  let mdF ← enrichChain rng (getField fv₁ "tags") (getField fv₁ "difficulty")
      (JSValue.obj fv₁) mdA
  pure (JSValue.obj (upsertField fv₁ "metadata" mdF))

/-- The two providers of `utils.ts`. -/
inductive AIProvider where
  | mistral : AIProvider
  | gemini : AIProvider
deriving DecidableEq

/-- Translation of `getProviderFromModel` (utils.ts): case-insensitive
substring dispatch, `mistral` first, then `gemini`/`google`, else none. -/
def getProviderFromModel (modelSelection : String) : Option AIProvider :=
  let lower := jsLower modelSelection.toList
  if containsSeq "mistral".toList lower then some AIProvider.mistral
  else if containsSeq "gemini".toList lower || containsSeq "google".toList lower then
    some AIProvider.gemini
  else none

/-- The retry temperature of the POST handler (route.ts lines 664-668):
the mistral lineage keeps the original temperature, every other resolved
provider (including an unresolved one) retries at `max(0, t - 0.1)`. -/
def retryTempFor (p : Option AIProvider) (temperature : ℚ) : ℚ :=
  if p = some AIProvider.mistral then temperature else max 0 (temperature - 1 / 10)

/-- The generation attempt plus its single bounded retry (route.ts lines
658-672): the first failure triggers exactly one further call at the
provider-dependent retry temperature; that call's outcome is final. -/
def generateWithRetry (try₁ try₂ : ℚ → Except String JSValue)
    (modelSelection : String) (temperature : ℚ) : Except String JSValue :=
  match try₁ temperature with
  | Except.ok r => Except.ok r
  | Except.error _ =>
      try₂ (retryTempFor (getProviderFromModel modelSelection) temperature)


/-- The request body of the generation endpoint after JSON parsing and
destructuring. `temperature` is modelled directly as a rational (its
default 0.7 is only ever forwarded to the provider call and the retry
computation). Absent fields are `undefined`. -/
structure PostBody where
  topic : JSValue
  count : JSValue
  temperature : ℚ
  difficulty : JSValue
  selectedAIModel : JSValue
  apiKey : JSValue

/-- The external effects of one POST request, injected as oracles: the
sequence reset, the first and second `oneTry` calls (provider call,
extraction and parsing included, indexed by the temperature they are given),
the database insert, and the enrichment randomness per variant index. -/
structure PostEnv where
  reset : Except String Unit
  try₁ : ℚ → Except String JSValue
  try₂ : ℚ → Except String JSValue
  insert : JSValue → Except String (Int × String)
  rand : Nat → EnrichRand

/-- The observable outcome of the POST handler: an early 400 with an error
message, the batch response carrying status, message and the
inserted/errors lists, or the top-level catch-all 500. -/
inductive PostResult where
  | badRequest (msg : String) : PostResult
  | batch (status : Nat) (message : String)
      (inserted : List (Int × String)) (errors : List (Nat × String)) : PostResult
  | fatal (msg : String) : PostResult

/-- Message of the count-range rejection (route.ts line 653). -/
def invalidCountMsg : String := "Invalid 'count'. Must be 1..5 for variants"

/-- The 3-character sequence two-backslashes-`n` that the post-fix
revalidation rejects inside sample/hidden inputs. -/
def hasEscapedNl (s : String) : Bool := containsSeq ['\\', '\\', 'n'] s.toList

/-- Revalidation predicate: a string free of doubly-escaped newlines. -/
def checkStringNoEsc : JSValue → Bool
  | JSValue.str s => !hasEscapedNl s
  | _ => false

/-- Translation of the per-variant body of the POST loop (route.ts lines
680-730): required-fields precheck, `validateAndFixVariant`,
`enrichMetadata`, structural revalidation of `test_cases`, then the
repository insert; any thrown error is the per-variant failure value. -/
def processVariant (env : PostEnv) (i : Nat) (v : JSValue) :
    Except String (Int × String) := do
  if !(optChain v "title").truthy || !(optChain v "difficulty").truthy ||
     !(optChain v "description").truthy || !(optChain v "metadata").truthy ||
     !(optChain v "test_cases").truthy then
    throw ("Variant " ++ toString (i + 1) ++ " missing required fields.")
  let v₁ ← validateAndFixVariant v
  let v₂ ← enrichMetadata (env.rand i) v₁
  let tc := optChain v₂ "test_cases"
  if !tc.truthy || !tc.typeofObject then
    throw ("Variant " ++ toString (i + 1) ++ " test_cases is malformed after fix.")
  if !(checkStringNoEsc (optChain tc "sample_input")) then
    throw ("Variant " ++ toString (i + 1) ++
      " sample_input has escaped newlines or is not a string after fix.")
  let hiOk :=
    match optChain tc "hidden_inputs" with
    | JSValue.arr es _ => es.all checkStringNoEsc
    | _ => false
  if !hiOk then
    throw ("Variant " ++ toString (i + 1) ++
      " hidden_inputs contains non-strings, escaped newlines, or is not an array after fix.")
  let hoOk :=
    match optChain tc "hidden_outputs" with
    | JSValue.arr es _ => es.all JSValue.isStr
    | _ => false
  if !hoOk then
    throw ("Variant " ++ toString (i + 1) ++
      " hidden_outputs contains non-strings or is not an array after fix.")
  env.insert v₂

/-- The sequential variant loop: every variant is processed; a success
appends to `inserted`, a failure appends to `errors`, and no outcome stops
the loop. -/
def processVariants (env : PostEnv) :
    List JSValue → Nat → List (Int × String) × List (Nat × String)
  | [], _ => ([], [])
  | v :: vs, i =>
      let rest := processVariants env vs (i + 1)
      match processVariant env i v with
      | Except.ok row => (row :: rest.1, rest.2)
      | Except.error e => (rest.1, (i + 1, e) :: rest.2)

/-- The summary message of the batch response. -/
def batchMessage (ins total errs : Nat) : String :=
  "Inserted " ++ toString ins ++ " of " ++ toString total ++
    (if errs != 0 then ", " ++ toString errs ++ " failed" else "") ++ "."

/-- Message thrown when the (possibly retried) generation result has no
variants array (route.ts line 675). -/
def noVariantsMsg : String := "AI response did not contain a valid 'variants' array."

/-- The count-range test of route.ts line 652: anything that is not a
number between 1 and 5 is invalid. -/
def countBadOf (c : JSValue) : Bool :=
  match c with
  | JSValue.num n => decide (n < 1) || decide (n > 5)
  | _ => true

/-- Translation of the POST handler control flow (route.ts lines 622-744):
field validations producing 400s, the sequence reset, the count-range
check, one generation attempt with its single retry (both failures escape
to the outer catch and become the top-level 500), then the per-variant
loop and the batch response whose status is 201 exactly when at least one
insert succeeded. -/
def postFlow (body : PostBody) (env : PostEnv) : PostResult :=
  if !body.topic.truthy then PostResult.badRequest "Topic is required"
  else if !body.selectedAIModel.truthy || !body.apiKey.truthy then
    PostResult.badRequest "AI model and API key are required"
  else
    match env.reset with
    | Except.error e => PostResult.fatal e
    | Except.ok _ =>
      let count := if body.count.isUndef then JSValue.num 3 else body.count
      if countBadOf count then PostResult.badRequest invalidCountMsg
      else
        let gen : Except String JSValue :=
          match body.selectedAIModel with
          | JSValue.str m => generateWithRetry env.try₁ env.try₂ m body.temperature
          | _ =>
              match env.try₁ body.temperature with
              | Except.ok r => Except.ok r
              | Except.error _ =>
                  Except.error "TypeError: modelSelection.toLowerCase is not a function"
        match gen with
        | Except.error e => PostResult.fatal e
        | Except.ok responseObj =>
          let vsOpt : Option (List JSValue) :=
            if !responseObj.truthy then none
            else
              match optChain responseObj "variants" with
              | JSValue.arr es _ => some es
              | _ => none
          match vsOpt with
          | none => PostResult.fatal noVariantsMsg
          | some vs =>
            let res := processVariants env vs 0
            PostResult.batch (if res.1.length != 0 then 201 else 500)
              (batchMessage res.1.length vs.length res.2.length) res.1 res.2

/-- Reading back the key an upsert just wrote yields the written value. -/
theorem getField_upsert_self (fs : List (String × JSValue)) (k : String) (v : JSValue) :
    getField (upsertField fs k v) k = v := by
  induction fs with
  | nil => simp [upsertField, getField]
  | cons kv rest ih =>
      obtain ⟨k₀, v₀⟩ := kv
      by_cases h : k₀ = k
      · simp [upsertField, getField, h]
      · simp [upsertField, getField, h, ih]

/-- An upsert leaves every other key unchanged. -/
theorem getField_upsert_ne (fs : List (String × JSValue)) (k k' : String) (v : JSValue)
    (h : k' ≠ k) : getField (upsertField fs k v) k' = getField fs k' := by
  induction fs with
  | nil => simp [upsertField, getField, Ne.symm h]
  | cons kv rest ih =>
      obtain ⟨k₀, v₀⟩ := kv
      by_cases h₀ : k₀ = k
      · simp [upsertField, getField, h₀, Ne.symm h]
      · simp [upsertField, getField, h₀, ih]

/-- A successful property write changes no other property. -/
theorem memberSet_optChain_ne (v v' : JSValue) (k k' : String) (x : JSValue)
    (h : memberSet v k x = Except.ok v') (hne : k' ≠ k) :
    optChain v' k' = optChain v k' := by
  cases v <;> simp [memberSet] at h <;> subst h <;>
    simp [optChain, getField_upsert_ne _ _ _ _ hne]

/-- A successful property write stores the written value. -/
theorem memberSet_optChain_self (v v' : JSValue) (k : String) (x : JSValue)
    (h : memberSet v k x = Except.ok v') : optChain v' k = x := by
  cases v <;> simp [memberSet] at h <;> subst h <;>
    simp [optChain, getField_upsert_self]

/-- Any slice of a character list is one of its infixes. -/
theorem sliceList_infix (l : List Char) (a b : Nat) : sliceList l a b <:+: l := by
  refine ⟨l.take a, (l.drop a).drop (b - a), ?_⟩
  simp [sliceList]

/-- The loose regex fallback also returns an infix of its input. -/
theorem jsonRegexSpan_infix (cs : List Char) : jsonRegexSpan cs <:+: cs := by
  unfold jsonRegexSpan
  cases h₁ : cs.findIdx? (· = '{') with
  | none => simp
  | some f =>
      cases h₂ : lastIdxOf cs '}' with
      | none => simp
      | some l₀ =>
          by_cases h₃ : f < l₀
          · simp [h₃, sliceList_infix]
          · simp [h₃]

/-- Every variant contributes exactly one entry to the batch result:
a row in `inserted` or an entry in `errors`. -/
theorem processVariants_length (env : PostEnv) (vs : List JSValue) (i : Nat) :
    (processVariants env vs i).1.length + (processVariants env vs i).2.length
      = vs.length := by
  induction vs generalizing i with
  | nil => simp [processVariants]
  | cons v rest ih =>
      simp only [processVariants]
      cases processVariant env i v with
      | ok row => simpa [Nat.succ_add] using ih (i + 1)
      | error e => simpa [← Nat.add_assoc] using ih (i + 1)

/-- Lower-casing a list of genuine strings never throws and lower-cases
each element. -/
theorem lowerTags_map_str (ts : List String) :
    lowerTags (ts.map JSValue.str) =
      Except.ok (ts.map (fun s => String.mk (jsLower s.toList))) := by
  induction ts with
  | nil => simp [lowerTags]
  | cons t rest ih => simp [lowerTags, ih, Except.map]


/-- The integer-division form of the subset size equals the
`Math.floor(r * 4) + 3` of the source. -/
theorem numIndicatorsOf_eq_floor (r : ℚ) :
    numIndicatorsOf r = (⌊r * 4⌋ + 3).toNat := by
  have hden : ((r.den : ℕ) : ℚ) ≠ 0 := Nat.cast_ne_zero.mpr r.den_nz
  have hr : r * ((r.den : ℕ) : ℚ) = ((r.num : ℤ) : ℚ) := by
    have h₀ := Rat.num_div_den r
    nth_rewrite 1 [← h₀]
    exact div_mul_cancel₀ _ hden
  have h4 : r * 4 = ((4 * r.num : ℤ) : ℚ) / ((r.den : ℕ) : ℚ) := by
    rw [eq_div_iff hden]
    calc r * 4 * ((r.den : ℕ) : ℚ) = r * ((r.den : ℕ) : ℚ) * 4 := by ring
    _ = ((r.num : ℤ) : ℚ) * 4 := by rw [hr]
    _ = ((4 * r.num : ℤ) : ℚ) := by push_cast; ring
  rw [numIndicatorsOf, h4, Rat.floor_intCast_div_natCast]



/-- Claim C2 (code bug): the normalizer is not total. The unguarded write
`fixedVariant.test_cases.sample_input = undefined` in step 1 of
`validateAndFixVariant` throws a `TypeError` whenever `test_cases` is
absent, `null`, or a primitive, instead of setting the field absent as the
spec contract promises. This theorem evaluates the function at the three
failing shapes. -/
theorem c2_normalizer_throws_on_bad_test_cases :
    validateAndFixVariant (JSValue.obj []) =
      Except.error "TypeError: Cannot set properties of undefined (setting sample_input)" ∧
    validateAndFixVariant (JSValue.obj [("test_cases", JSValue.null)]) =
      Except.error "TypeError: Cannot set properties of null (setting sample_input)" ∧
    validateAndFixVariant (JSValue.obj [("test_cases", JSValue.str "oops")]) =
      Except.error "TypeError: Cannot create property sample_input on a primitive" :=
  ⟨rfl, rfl, rfl⟩

/-- Claim C8, counterexample: the escaped-newline collapse is not
idempotent. On the string of three backslashes followed by `n`, one
application leaves two backslashes before the `n`, and a second
application collapses again. -/
theorem c8_collapse_not_idempotent_counterexample :
    collapseEsc (collapseEsc ['\\', '\\', '\\', 'n']) ≠
      collapseEsc ['\\', '\\', '\\', 'n'] := by decide

/-- Claim C8 as amended: the collapse leaves unchanged every string that
contains no doubly-escaped newline (no two consecutive backslashes
followed by `n`) — in particular any string containing only singly-escaped
newlines; idempotence in general fails (see the counterexample). -/
theorem c8_collapse_noop_without_double_escape (l : List Char)
    (h : containsSeq ['\\', '\\', 'n'] l = false) : collapseEsc l = l := by
  induction l using collapseEsc.induct with
  | case1 rest =>
      exfalso
      simp [containsSeq, startsWithSeq] at h
  | case2 c rest hne ih =>
      simp only [containsSeq, Bool.or_eq_false_iff] at h
      obtain ⟨hs, hr⟩ := h
      rw [collapseEsc.eq_def]
      split
      · rename_i rest' heq
        exfalso
        cases heq
        simp [startsWithSeq] at hs
      · rename_i c' rest' heq
        cases heq
        exact congrArg (c :: ·) (ih hr)
      · rename_i x heq
        exact absurd heq (by simp)
  | case3 => rfl

/-- Witness for C8: a string with only a singly-escaped newline has no
doubly-escaped newline and is left unchanged by the collapse. -/
theorem c8_collapse_noop_without_double_escape_witness :
    containsSeq ['\\', '\\', 'n'] ['a', '\\', 'n'] = false ∧
      collapseEsc ['a', '\\', 'n'] = ['a', '\\', 'n'] :=
  ⟨by decide, c8_collapse_noop_without_double_escape ['a', '\\', 'n'] (by decide)⟩

/-- Claim C7: when the first generation attempt succeeds there is no
second call, and when it fails the orchestrator performs exactly the one
retry, at the unchanged temperature when the resolved provider is mistral
and at `max(0, temperature - 0.1)` for every other resolution. -/
theorem c7_retry_once_with_provider_temperature
    (try₁ try₂ : ℚ → Except String JSValue) (m : String) (t : ℚ) :
    (∀ r, try₁ t = Except.ok r → generateWithRetry try₁ try₂ m t = Except.ok r) ∧
    (∀ e, try₁ t = Except.error e →
      generateWithRetry try₁ try₂ m t =
        try₂ (if getProviderFromModel m = some AIProvider.mistral then t
              else max 0 (t - 1 / 10))) := by
  constructor
  · intro r h
    simp [generateWithRetry, h]
  · intro e h
    simp [generateWithRetry, h, retryTempFor]

/-- A generation oracle that always fails. -/
def cTryFail : ℚ → Except String JSValue := fun _ => Except.error "provider overloaded"

/-- A generation oracle that always succeeds with an empty variants
array. -/
def cTryOk : ℚ → Except String JSValue :=
  fun _ => Except.ok (JSValue.obj [("variants", JSValue.arr [] [])])

/-- Witness for C7 at a mistral model selection and a failing first
attempt. -/
theorem c7_retry_once_with_provider_temperature_witness :
    generateWithRetry cTryFail cTryOk "mistral-small" (7/10) =
      cTryOk (if getProviderFromModel "mistral-small" = some AIProvider.mistral
              then (7/10 : ℚ) else max 0 (7/10 - 1/10)) :=
  (c7_retry_once_with_provider_temperature cTryFail cTryOk "mistral-small" (7/10)).2
    "provider overloaded" rfl

/-- The nested-quotes extraction example of the spec. -/
def exNested : String := "\x7b\"a\":\"\x7d\x7d\x7d\"\x7d"

/-- Claim C6, counterexample to the stated length: the example input
`\x7b"a":"\x7d\x7d\x7d"\x7d` has 11 characters, not 14 (extraction does
return it unchanged). -/
theorem c6_nested_input_has_eleven_chars :
    extractJSONObject exNested = Except.ok exNested ∧ exNested.length = 11 :=
  ⟨rfl, rfl⟩

/-- Claim C6 as amended (11 characters instead of 14): the nested-quotes
object is returned unchanged, both bare and wrapped in prose, and one scan
step inside a quoted string on any character other than a quote or a
backslash leaves the whole scan state — depth and recorded indices
included — untouched. -/
theorem c6_braces_inside_strings_never_truncate :
    extractJSONObject exNested = Except.ok exNested ∧
    extractJSONObject ("text " ++ exNested ++ " more") = Except.ok exNested ∧
    ∀ (st : ScanState) (i : Nat) (c : Char), st.inString = true →
      st.escapeNext = false → c ≠ '"' → c ≠ '\\' → scanStep st i c = st := by
  refine ⟨rfl, rfl, ?_⟩
  intro st i c h₁ h₂ h₃ h₄
  simp [scanStep, h₁, h₂, h₃, h₄]

/-- Witness for C6: a closing brace seen inside a quoted string changes
nothing about the scan state. -/
theorem c6_braces_inside_strings_never_truncate_witness :
    scanStep { braceCount := 1, inString := true, escapeNext := false,
               startIdx := some 0, endIdx := none } 5 '}' =
      { braceCount := 1, inString := true, escapeNext := false,
        startIdx := some 0, endIdx := none } :=
  c6_braces_inside_strings_never_truncate.2.2 _ 5 '}' rfl rfl (by decide) (by decide)

/-- Claim C10: `ensureStringArray` is total and case-complete — arrays are
coerced element-wise (stringify, collapse doubly-escaped newlines, trim);
strings are parsed and coerced the same way exactly when they parse to a
JSON array; every other input, and every string not parsing to an array,
yields the empty array. -/
theorem c10_ensureStringArray_case_analysis :
    (∀ (es : List JSValue) (ps : List (String × JSValue)),
      ensureStringArray (JSValue.arr es ps) = es.map coerceElem) ∧
    (∀ (s : String) (es : List JSValue) (ps : List (String × JSValue)),
      jsonParse s = some (JSValue.arr es ps) →
        ensureStringArray (JSValue.str s) = es.map coerceElem) ∧
    (∀ s : String, (∀ es ps, jsonParse s ≠ some (JSValue.arr es ps)) →
      ensureStringArray (JSValue.str s) = []) ∧
    (∀ v : JSValue, v.isArr = false → v.isStr = false →
      ensureStringArray v = []) := by
  refine ⟨fun es ps => rfl, ?_, ?_, ?_⟩
  · intro s es ps h
    simp [ensureStringArray, h]
  · intro s h
    cases hp : jsonParse s with
    | none => simp [ensureStringArray, hp]
    | some w =>
        cases w
        case arr es ps => exact absurd hp (h es ps)
        all_goals simp [ensureStringArray, hp]
  · intro v ha hs
    cases v with
    | arr es ps => simp [JSValue.isArr] at ha
    | str s => simp [JSValue.isStr] at hs
    | undef => rfl
    | null => rfl
    | bool b => rfl
    | num n => rfl
    | obj fs => rfl

/-- Witness for C10: a stringified array is parsed and coerced, a
non-array JSON string yields the empty array, and so does a null input. -/
theorem c10_ensureStringArray_case_analysis_witness :
    ensureStringArray (JSValue.str "[1, \" x\"]") = ["1", "x"] ∧
    ensureStringArray (JSValue.str "\"zz\"") = [] ∧
    ensureStringArray JSValue.null = [] := by
  refine ⟨?_, ?_, ?_⟩
  · rw [c10_ensureStringArray_case_analysis.2.1 "[1, \" x\"]"
      [JSValue.num 1, JSValue.str " x"] [] rfl]
    rfl
  · exact c10_ensureStringArray_case_analysis.2.2.1 "\"zz\""
      (fun es ps h => by
        rw [show jsonParse "\"zz\"" = some (JSValue.str "zz") from rfl] at h
        exact JSValue.noConfusion (Option.some.inj h))
  · exact c10_ensureStringArray_case_analysis.2.2.2 JSValue.null rfl rfl

/-- The trailing-comma extraction example of the spec. -/
def exComma : String := "\x7b\"a\":1,\x7d"

/-- Claim C3, counterexample: no trailing-comma repair exists. The
extractor returns the balanced span of `\x7b"a":1,\x7d` verbatim, comma
included, and that text does not parse as JSON at all (so it certainly
does not parse to the object with field a mapped to 1). -/
theorem c3_trailing_comma_not_repaired_counterexample :
    extractJSONObject exComma = Except.ok exComma ∧ jsonParse exComma = none :=
  ⟨rfl, rfl⟩

/-- Claim C3 as amended: the extractor never modifies the text it
returns — every successful extraction is a contiguous substring of the
trimmed input (in particular no comma is ever removed); on the spec's
example the returned span is the input itself, which still fails to
parse. -/
theorem c3_extract_returns_verbatim_substring :
    (extractJSONObject ("json: " ++ exComma) = Except.ok exComma ∧
      jsonParse exComma = none) ∧
    ∀ (raw out : String), extractJSONObject raw = Except.ok out →
      out.toList <:+: jsTrim raw.toList := by
  refine ⟨⟨rfl, rfl⟩, ?_⟩
  intro raw out h
  unfold extractJSONObject at h
  by_cases hp : (jsonParse (String.mk (jsTrim raw.toList))).isSome
  · rw [if_pos hp] at h
    cases h
    exact List.infix_rfl
  · rw [if_neg hp] at h
    simp only [ne_eq] at h
    split at h
    · cases h
      exact sliceList_infix _ _ _
    · split_ifs at h with h₁ h₂
      · cases h
        split
        · split_ifs
          · exact sliceList_infix _ _ _
          · exact jsonRegexSpan_infix _
        · exact jsonRegexSpan_infix _

/-- Witness for C3: a prose-wrapped trailing-comma object extracts to a
substring of the trimmed input. -/
theorem c3_extract_returns_verbatim_substring_witness :
    exComma.toList <:+: jsTrim ("json: " ++ exComma).toList :=
  c3_extract_returns_verbatim_substring.2 ("json: " ++ exComma) exComma rfl


/-- Claim C5 as amended: the classifier is exactly first-match lookup in
the ordered keyword table of the source (whose first rule reads
`sorting`, not `sort`, and whose Trees rule also lists `binary tree`);
the blob handed to it is the lowercase concatenation
`title SP description SP tags-joined`; a blob containing both `array` and
`graph` keywords classifies as Arrays because the array rule comes first,
and a blob matching no rule classifies as General. -/
theorem c5_first_match_table_with_source_keywords :
    (∀ text : List Char, classifyChain text = tableClassify text) ∧
    (∀ (t d : String) (tags : List String),
      inferTopicCategory (JSValue.obj [("title", JSValue.str t),
        ("description", JSValue.str d),
        ("tags", JSValue.arr (tags.map JSValue.str) [])]) =
      Except.ok (tableClassify (String.mk (jsLower t.toList) ++ " " ++
        String.mk (jsLower d.toList) ++ " " ++
        String.intercalate " " (tags.map (fun s => String.mk (jsLower s.toList)))).toList)) ∧
    classifyChain "array graph".toList = "Arrays" ∧
    classifyChain "nothing relevant".toList = "General" := by
  have hchain : ∀ text : List Char, classifyChain text = tableClassify text := by
    intro text
    simp only [classifyChain, tableClassify, topicRules, List.find?, List.any,
      Bool.or_false, Bool.or_assoc]
    cases jsIncludes text "array" || (jsIncludes text "subarray" || (jsIncludes text "sorting" || (jsIncludes text "rotate"))) with
    | true => simp
    | false =>
      cases jsIncludes text "string" || (jsIncludes text "palindrome" || (jsIncludes text "substring" || (jsIncludes text "anagram"))) with
      | true => simp
      | false =>
        cases jsIncludes text "tree" || (jsIncludes text "bst" || (jsIncludes text "binary tree" || (jsIncludes text "trie"))) with
        | true => simp
        | false =>
          cases jsIncludes text "graph" || (jsIncludes text "dfs" || (jsIncludes text "bfs" || (jsIncludes text "path"))) with
          | true => simp
          | false =>
            cases jsIncludes text "dp" || (jsIncludes text "dynamic programming" || (jsIncludes text "memoization")) with
            | true => simp
            | false =>
              cases jsIncludes text "search" || (jsIncludes text "binary search") with
              | true => simp
              | false =>
                cases jsIncludes text "two pointers" || (jsIncludes text "sliding window") with
                | true => simp
                | false =>
                  cases jsIncludes text "linked list" || (jsIncludes text "node") with
                  | true => simp
                  | false =>
                    cases jsIncludes text "stack" || (jsIncludes text "queue") with
                    | true => simp
                    | false =>
                      cases jsIncludes text "hash map" || (jsIncludes text "hash table" || (jsIncludes text "set")) with
                      | true => simp
                      | false =>
                        cases jsIncludes text "heap" || (jsIncludes text "priority queue") with
                        | true => simp
                        | false =>
                          cases jsIncludes text "matrix" || (jsIncludes text "grid") with
                          | true => simp
                          | false =>
                            cases jsIncludes text "bit manipulation" || (jsIncludes text "bits") with
                            | true => simp
                            | false =>
                              rfl
  refine ⟨hchain, ?_, by decide, by decide⟩
  intro t d tags
  simp [inferTopicCategory, toLowerOrEmpty, optChain, getField, lowerTags_map_str,
    Except.map, hchain]
  rfl

/-- Claim C5, counterexample: the spec's keyword `sort` is not in the
code's table (the code tests `sorting`). The blob built from the title
`Merge Sort` contains `sort`, yet the classifier returns General, not
Arrays. -/
theorem c5_merge_sort_classifies_general_counterexample :
    jsIncludes "merge sort  ".toList "sort" = true ∧
    inferTopicCategory (JSValue.obj [("title", JSValue.str "Merge Sort")]) =
      Except.ok "General" :=
  ⟨by decide, rfl⟩

/-- Claim C4, counterexample: a complete request with the integer count 10
is rejected with the out-of-range 400, because the code bounds count by 5,
not 10. -/
theorem c4_count_ten_rejected_counterexample :
    postFlow
      { topic := JSValue.str "arrays", count := JSValue.num 10,
        temperature := 7/10, difficulty := JSValue.undef,
        selectedAIModel := JSValue.str "gemini", apiKey := JSValue.str "k" }
      { reset := Except.ok (), try₁ := cTryOk, try₂ := cTryOk,
        insert := fun _ => Except.error "unused",
        rand := fun _ => ⟨0, commonIndicators⟩ } =
      PostResult.badRequest invalidCountMsg := rfl

/-- Claim C4 as amended: the endpoint returns some 400 exactly when the
topic is missing/falsy, the model selection or API key is missing/falsy,
or (once those pass and the sequence reset succeeds) the count — defaulted
to 3 when absent — is not a number in the range 1..5. -/
theorem c4_badRequest_characterization (body : PostBody) (env : PostEnv) :
    (∃ msg, postFlow body env = PostResult.badRequest msg) ↔
      (body.topic.truthy = false ∨ body.selectedAIModel.truthy = false ∨
       body.apiKey.truthy = false ∨
       (env.reset = Except.ok () ∧
         ∀ n : Int,
           (if body.count.isUndef then JSValue.num 3 else body.count) =
             JSValue.num n → n < 1 ∨ 5 < n)) := by
  unfold postFlow
  by_cases h₁ : body.topic.truthy
  case neg =>
    simp [h₁]
  case pos =>
  simp only [h₁, Bool.not_true, Bool.false_eq_true, if_false]
  by_cases h₂ : body.selectedAIModel.truthy
  case neg =>
    simp [h₂]
  case pos =>
  by_cases h₃ : body.apiKey.truthy
  case neg =>
    simp [h₂, h₃]
  case pos =>
  simp only [h₂, h₃, Bool.not_true, Bool.or_self, Bool.false_eq_true, if_false]
  cases hr : env.reset with
  | error e =>
      simp [hr]
  | ok u =>
      cases u
      simp only [hr, true_and, Bool.true_eq_false, false_or]
      set c := if body.count.isUndef then JSValue.num 3 else body.count
      by_cases hbad : countBadOf c = true
      · rw [if_pos hbad]
        apply iff_of_true
        · exact ⟨invalidCountMsg, rfl⟩
        · intro n hn
          rw [hn] at hbad
          simpa [countBadOf] using hbad
      · rw [if_neg hbad]
        apply iff_of_false
        · rintro ⟨msg, hmsg⟩
          split at hmsg
          · exact PostResult.noConfusion hmsg
          · split at hmsg
            · exact PostResult.noConfusion hmsg
            · exact PostResult.noConfusion hmsg
        · intro hall
          cases hcc : c <;> rw [hcc] at hbad <;> simp [countBadOf] at hbad
          rename_i n
          have hrange := hall n hcc
          omega

/-- Step 0 never touches `mastery_indicators`. -/
theorem enrichStep0_preserves_mi (tags md md' : JSValue)
    (h : enrichStep0 tags md = Except.ok md') :
    optChain md' "mastery_indicators" = optChain md "mastery_indicators" := by
  unfold enrichStep0 at h
  split at h
  · split_ifs at h
    · exact memberSet_optChain_ne _ _ _ _ _ h (by decide)
    · exact memberSet_optChain_ne _ _ _ _ _ h (by decide)
    · cases h; rfl
  · split_ifs at h
    · exact memberSet_optChain_ne _ _ _ _ _ h (by decide)
    · cases h; rfl

/-- Step 1 never touches `mastery_indicators`. -/
theorem enrichStep1_preserves_mi (vv md md' : JSValue)
    (h : enrichStep1 vv md = Except.ok md') :
    optChain md' "mastery_indicators" = optChain md "mastery_indicators" := by
  unfold enrichStep1 at h
  split_ifs at h
  · simp only [bind, Except.bind] at h
    cases hi : inferTopicCategory vv with
    | error e => rw [hi] at h; exact Except.noConfusion h
    | ok cat =>
        rw [hi] at h
        exact memberSet_optChain_ne _ _ _ _ _ h (by decide)
  · cases h; rfl

/-- Step 2 never touches `mastery_indicators`. -/
theorem enrichStep2_preserves_mi (md md' : JSValue)
    (h : enrichStep2 md = Except.ok md') :
    optChain md' "mastery_indicators" = optChain md "mastery_indicators" := by
  unfold enrichStep2 at h
  simp only [bind, Except.bind, pure, Except.pure] at h
  split at h
  · cases hm : memberSet md "time_complexity" (JSValue.str "O(N)") with
    | error e => rw [hm] at h; exact Except.noConfusion h
    | ok md₁ =>
        rw [hm] at h
        dsimp only at h
        have e₁ := memberSet_optChain_ne md md₁ "time_complexity"
          "mastery_indicators" (JSValue.str "O(N)") hm (by decide)
        split_ifs at h with h₂
        · have e₂ := memberSet_optChain_ne md₁ md' "space_complexity"
            "mastery_indicators" (JSValue.str "O(1)") h (by decide)
          rw [e₂, e₁]
        · cases h
          rw [e₁]
  · split_ifs at h with h₂
    · exact memberSet_optChain_ne _ _ _ _ _ h (by decide)
    · cases h
      rfl

/-- Step 4 never touches `mastery_indicators`. -/
theorem enrichStep4_preserves_mi (diff md md' : JSValue)
    (h : enrichStep4 diff md = Except.ok md') :
    optChain md' "mastery_indicators" = optChain md "mastery_indicators" := by
  unfold enrichStep4 at h
  split_ifs at h
  all_goals
    first
      | exact memberSet_optChain_ne _ _ _ _ _ h (by decide)
      | (simp only [pure, Except.pure] at h; cases h; rfl)

/-- Step 5 writes the truncated shuffled pool whenever the current
`mastery_indicators` is not a non-empty array. -/
theorem enrichStep5_writes_mi (rng : EnrichRand) (md md' : JSValue)
    (h : enrichStep5 rng md = Except.ok md')
    (hmi : isNonEmptyArray (optChain md "mastery_indicators") = false) :
    optChain md' "mastery_indicators" =
      JSValue.arr ((rng.shuffled.take (numIndicatorsOf rng.r)).map JSValue.str) [] := by
  unfold enrichStep5 at h
  rw [hmi] at h
  simp only [Bool.not_false, if_true] at h
  exact memberSet_optChain_self _ _ _ _ h

/-- Through the whole enrichment chain, when the incoming
`mastery_indicators` is not a non-empty array the final metadata holds the
truncated shuffled pool. -/
theorem enrichChain_writes_mi (rng : EnrichRand) (tags diff vv md md' : JSValue)
    (h : enrichChain rng tags diff vv md = Except.ok md')
    (hmi : isNonEmptyArray (optChain md "mastery_indicators") = false) :
    optChain md' "mastery_indicators" =
      JSValue.arr ((rng.shuffled.take (numIndicatorsOf rng.r)).map JSValue.str) [] := by
  unfold enrichChain at h
  simp only [bind, Except.bind] at h
  cases h₀ : enrichStep0 tags md with
  | error e => rw [h₀] at h; exact Except.noConfusion h
  | ok mdB =>
  rw [h₀] at h; dsimp only at h
  cases h₁ : enrichStep1 vv mdB with
  | error e => rw [h₁] at h; exact Except.noConfusion h
  | ok mdC =>
  rw [h₁] at h; dsimp only at h
  cases h₂ : enrichStep2 mdC with
  | error e => rw [h₂] at h; exact Except.noConfusion h
  | ok mdD =>
  rw [h₂] at h; dsimp only at h
  cases h₄ : enrichStep4 diff mdD with
  | error e => rw [h₄] at h; exact Except.noConfusion h
  | ok mdE =>
  rw [h₄] at h; dsimp only at h
  have p₀ := enrichStep0_preserves_mi tags md mdB h₀
  have p₁ := enrichStep1_preserves_mi vv mdB mdC h₁
  have p₂ := enrichStep2_preserves_mi mdC mdD h₂
  have p₄ := enrichStep4_preserves_mi diff mdD mdE h₄
  exact enrichStep5_writes_mi rng mdE md' h
    (by rw [p₄, p₂, p₁, p₀]; exact hmi)

/-- The mastery-indicator field the enrichment condition actually reads:
the current metadata of the (spread) variant, with a falsy metadata
replaced by the empty object. -/
def inputMasteryIndicators (v : JSValue) : JSValue :=
  optChain (getField (jsSpread v) "metadata") "mastery_indicators"

/-- Claim C9: whenever the incoming `mastery_indicators` is not already a
non-empty array (in particular when it has the object shape the data
model declares), a successful enrichment replaces it by a list of between
3 and 6 distinct phrases drawn from the fixed eight-phrase pool — for
every shuffle of the pool and every `Math.random()` draw in `[0, 1)`. -/
theorem c9_mastery_indicators_synthesized (rng : EnrichRand) (v v' : JSValue)
    (hperm : rng.shuffled.Perm commonIndicators)
    (hr0 : 0 ≤ rng.r) (hr1 : rng.r < 1)
    (hmi : isNonEmptyArray (inputMasteryIndicators v) = false)
    (henrich : enrichMetadata rng v = Except.ok v') :
    ∃ ms : List String,
      optChain (optChain v' "metadata") "mastery_indicators" =
        JSValue.arr (ms.map JSValue.str) [] ∧
      3 ≤ ms.length ∧ ms.length ≤ 6 ∧ ms.Nodup ∧
      ∀ s ∈ ms, s ∈ commonIndicators := by
  unfold enrichMetadata at henrich
  simp only [bind, Except.bind] at henrich
  cases hc : enrichChain rng (getField (upsertField (jsSpread v) "metadata"
      (if (getField (jsSpread v) "metadata").truthy then getField (jsSpread v) "metadata"
       else JSValue.obj [])) "tags")
    (getField (upsertField (jsSpread v) "metadata"
      (if (getField (jsSpread v) "metadata").truthy then getField (jsSpread v) "metadata"
       else JSValue.obj [])) "difficulty")
    (JSValue.obj (upsertField (jsSpread v) "metadata"
      (if (getField (jsSpread v) "metadata").truthy then getField (jsSpread v) "metadata"
       else JSValue.obj [])))
    (if (getField (jsSpread v) "metadata").truthy then getField (jsSpread v) "metadata"
     else JSValue.obj []) with
  | error e => rw [hc] at henrich; exact Except.noConfusion henrich
  | ok mdF =>
  rw [hc] at henrich
  dsimp only at henrich
  cases henrich
  have hmi₂ : isNonEmptyArray (optChain
      (if (getField (jsSpread v) "metadata").truthy then getField (jsSpread v) "metadata"
       else JSValue.obj []) "mastery_indicators") = false := by
    by_cases ht : (getField (jsSpread v) "metadata").truthy
    · rw [if_pos ht]; exact hmi
    · rw [if_neg ht]; rfl
  have hwrite := enrichChain_writes_mi rng _ _ _ _ mdF hc hmi₂
  refine ⟨rng.shuffled.take (numIndicatorsOf rng.r), ?_, ?_, ?_, ?_, ?_⟩
  · rw [optChain, getField_upsert_self]
    exact hwrite
  · have hlen : rng.shuffled.length = 8 := by
      rw [hperm.length_eq]; rfl
    have hk : 3 ≤ numIndicatorsOf rng.r ∧ numIndicatorsOf rng.r ≤ 6 := by
      rw [numIndicatorsOf_eq_floor]
      have hlo : (0 : ℤ) ≤ ⌊rng.r * 4⌋ := by
        apply Int.floor_nonneg.mpr
        positivity
      have hhi : ⌊rng.r * 4⌋ < 4 := by
        apply Int.floor_lt.mpr
        push_cast
        linarith
      omega
    simp [List.length_take, hlen]
    omega
  · have hlen : rng.shuffled.length = 8 := by
      rw [hperm.length_eq]; rfl
    have hk : numIndicatorsOf rng.r ≤ 6 := by
      rw [numIndicatorsOf_eq_floor]
      have hhi : ⌊rng.r * 4⌋ < 4 := by
        apply Int.floor_lt.mpr
        push_cast
        linarith
      have hlo : (0 : ℤ) ≤ ⌊rng.r * 4⌋ := by
        apply Int.floor_nonneg.mpr
        positivity
      omega
    calc (rng.shuffled.take (numIndicatorsOf rng.r)).length
        ≤ numIndicatorsOf rng.r := by simp [List.length_take]
      _ ≤ 6 := hk
  · have hnd : rng.shuffled.Nodup := hperm.nodup_iff.mpr (by decide)
    exact hnd.sublist (List.take_sublist _ _)
  · intro s hs
    have : s ∈ rng.shuffled := List.mem_of_mem_take hs
    exact hperm.mem_iff.mp this

/-- The result of enriching an empty variant with the identity shuffle and
a zero draw. -/
def cEnrichedEmpty : JSValue :=
  JSValue.obj [("metadata", JSValue.obj
    [("tags", JSValue.arr [] []),
     ("topic_category", JSValue.str "General"),
     ("time_complexity", JSValue.str "O(N)"),
     ("space_complexity", JSValue.str "O(1)"),
     ("expected_solve_time_minutes", JSValue.num 15),
     ("mastery_indicators", JSValue.arr
       [JSValue.str "Handles edge cases consistently",
        JSValue.str "Understands time-space trade-offs",
        JSValue.str "Knows optimal algorithmic patterns"] [])])]

/-- Witness for C9 at the empty variant, identity shuffle and zero draw. -/
theorem c9_mastery_indicators_synthesized_witness :
    ∃ ms : List String,
      optChain (optChain cEnrichedEmpty "metadata") "mastery_indicators" =
        JSValue.arr (ms.map JSValue.str) [] ∧
      3 ≤ ms.length ∧ ms.length ≤ 6 ∧ ms.Nodup ∧
      ∀ s ∈ ms, s ∈ commonIndicators :=
  c9_mastery_indicators_synthesized ⟨0, commonIndicators⟩ (JSValue.obj [])
    cEnrichedEmpty (List.Perm.refl _) (le_refl 0) (by norm_num) rfl rfl

/-- Claim C1, counterexample: when the single generation call fails and
its one retry fails too, the whole batch aborts with the top-level 500 —
no per-attempt entry is recorded and no variants are processed — contrary
to the claim that such errors never abort the batch. -/
theorem c1_double_generation_failure_aborts_counterexample :
    postFlow
      { topic := JSValue.str "arrays", count := JSValue.num 2,
        temperature := 7/10, difficulty := JSValue.undef,
        selectedAIModel := JSValue.str "gemini-pro", apiKey := JSValue.str "key" }
      { reset := Except.ok (), try₁ := cTryFail, try₂ := cTryFail,
        insert := fun _ => Except.error "unused",
        rand := fun _ => ⟨0, commonIndicators⟩ } =
      PostResult.fatal "provider overloaded" := rfl

/-- Claim C1 as amended: once generation (with its single retry) has
succeeded, per-variant failures are recorded in the errors list and never
abort the batch — every variant is processed, each contributing exactly
one entry to `inserted` or to `errors`, and the batch response carries
both lists, with status 201 exactly when at least one insert succeeded;
but a generation failure that survives the one retry escapes to the
top-level 500 (see the counterexample). -/
theorem c1_batch_reports_partial_failures (body : PostBody) (env : PostEnv)
    (m : String) (ro : JSValue) (vs : List JSValue) (ps : List (String × JSValue))
    (h₁ : body.topic.truthy = true)
    (h₂ : body.selectedAIModel = JSValue.str m)
    (h₂b : m ≠ "")
    (h₃ : body.apiKey.truthy = true)
    (h₄ : env.reset = Except.ok ())
    (h₅ : countBadOf (if body.count.isUndef then JSValue.num 3 else body.count) = false)
    (h₆ : generateWithRetry env.try₁ env.try₂ m body.temperature = Except.ok ro)
    (h₇ : ro.truthy = true)
    (h₈ : optChain ro "variants" = JSValue.arr vs ps) :
    postFlow body env =
      PostResult.batch
        (if (processVariants env vs 0).1.length != 0 then 201 else 500)
        (batchMessage (processVariants env vs 0).1.length vs.length
          (processVariants env vs 0).2.length)
        (processVariants env vs 0).1 (processVariants env vs 0).2 ∧
    (processVariants env vs 0).1.length + (processVariants env vs 0).2.length
      = vs.length := by
  constructor
  · unfold postFlow
    rw [h₂] at *
    simp only [h₁, h₃, Bool.not_true, Bool.false_eq_true, if_false, h₄]
    have htm : (JSValue.str m).truthy = true := by
      simp [JSValue.truthy, h₂b]
    simp only [htm, Bool.not_true, Bool.or_self, Bool.false_eq_true, if_false]
    rw [h₅]
    simp only [Bool.false_eq_true, if_false]
    rw [h₆]
    dsimp only
    simp only [h₇, Bool.not_true, Bool.false_eq_true, if_false]
    rw [h₈]
  · exact processVariants_length env vs 0

/-- A well-formed variant for the batch witness. -/
def cGoodVariant : JSValue :=
  JSValue.obj [("title", JSValue.str "Find Target"),
    ("difficulty", JSValue.str "Easy"),
    ("description", JSValue.str "desc"),
    ("metadata", JSValue.obj []),
    ("test_cases", JSValue.obj
      [("sample_input", JSValue.str "1 2"),
       ("sample_output", JSValue.str "3"),
       ("hidden_inputs", JSValue.arr [JSValue.str "4 5"] []),
       ("hidden_outputs", JSValue.arr [JSValue.str "9"] [])])]

/-- Request body for the batch witness. -/
def cBatchBody : PostBody :=
  { topic := JSValue.str "arrays", count := JSValue.num 2,
    temperature := 7/10, difficulty := JSValue.undef,
    selectedAIModel := JSValue.str "gemini-pro", apiKey := JSValue.str "key" }

/-- Environment for the batch witness: generation succeeds with one good
and one empty variant, inserts always succeed. -/
def cBatchEnv : PostEnv :=
  { reset := Except.ok (),
    try₁ := fun _ => Except.ok (JSValue.obj
      [("variants", JSValue.arr [cGoodVariant, JSValue.obj []] [])]),
    try₂ := fun _ => Except.error "unused",
    insert := fun _ => Except.ok (5, "Find Target"),
    rand := fun _ => ⟨0, commonIndicators⟩ }

/-- Witness for C1: a two-variant batch with one processing failure still
returns the batch shape, and the two lists together account for both
variants. -/
theorem c1_batch_reports_partial_failures_witness :
    (postFlow cBatchBody cBatchEnv =
      PostResult.batch
        (if (processVariants cBatchEnv [cGoodVariant, JSValue.obj []] 0).1.length != 0
         then 201 else 500)
        (batchMessage
          (processVariants cBatchEnv [cGoodVariant, JSValue.obj []] 0).1.length 2
          (processVariants cBatchEnv [cGoodVariant, JSValue.obj []] 0).2.length)
        (processVariants cBatchEnv [cGoodVariant, JSValue.obj []] 0).1
        (processVariants cBatchEnv [cGoodVariant, JSValue.obj []] 0).2 ∧
     (processVariants cBatchEnv [cGoodVariant, JSValue.obj []] 0).1.length +
       (processVariants cBatchEnv [cGoodVariant, JSValue.obj []] 0).2.length = 2) :=
  c1_batch_reports_partial_failures cBatchBody cBatchEnv "gemini-pro"
    (JSValue.obj [("variants", JSValue.arr [cGoodVariant, JSValue.obj []] [])])
    [cGoodVariant, JSValue.obj []] []
    rfl rfl (by decide) rfl rfl rfl rfl rfl rfl

